import Mathlib

/-!
Shallow embedding of the CargoExpress admin-token / order / payment core.

Sources embedded here:
- `AdminAuthService` (apps/bot/src/handlers/commands/index.ts, second document):
  `generateDashboardAccess`, `validateDashboardToken`, `markTokenAsUsed`,
  `markTokenAsExpired`, `revokeAdminTokens`, `createWebSession`, `validateWebSession`.
- `PaymentService` (src/unnamed/part_009): `updateTransactionStatus`,
  `processCompletedTransaction`, `updateUserBalance`.
- `OrderService` (src/unnamed/part_001): `createShippingOrder`, `createPurchaseOrder`,
  `getShippingOrder`, `updateShippingOrderStatus`, `addTrackingNumber`,
  `createStatusHistory`, `cacheOrder`, `getCachedOrder`, `clearOrderCache`.
- `RedisHelper` and `REDIS_KEYS` (src/unnamed/part_006).

Conventions: timestamps are milliseconds as `Nat` (`Date.now()`), TTLs are seconds
(Redis `setex`); money is `Int`; ids are `Nat`. Stateful methods are state-passing
functions returning `Except RErr α × Sys`: the returned state keeps every mutation
performed before a thrown error, matching JS semantics where an awaited rejection
does not roll back earlier awaited writes.  ORM `include` hydration (joined rows)
is elided: it decorates returned objects but none of the embedded control flow
reads the joined data.
-/

deriving instance DecidableEq for Except

namespace Cargo

/-- `TransactionType` enum (src/unnamed/part_005). -/
inductive TransactionType
  | PAYMENT
  | REFUND
  | BONUS
  | WITHDRAWAL
deriving DecidableEq

/-- `TransactionStatus` enum (src/unnamed/part_005). -/
inductive TransactionStatus
  | PENDING
  | COMPLETED
  | FAILED
  | CANCELLED
deriving DecidableEq

/-- `OrderStatus` enum for shipping orders (packages/shared/src/types/order.ts). -/
inductive OrderStatus
  | CREATED
  | PAID
  | WAREHOUSE_RECEIVED
  | PROCESSING
  | SHIPPED
  | CUSTOMS
  | IN_TRANSIT
  | READY_PICKUP
  | DELIVERED
  | PROBLEM
  | CANCELLED
deriving DecidableEq

/-- The string value of each `OrderStatus` member (the TS enum is string-valued). -/
def statusStr : OrderStatus → String
  | .CREATED => "CREATED"
  | .PAID => "PAID"
  | .WAREHOUSE_RECEIVED => "WAREHOUSE_RECEIVED"
  | .PROCESSING => "PROCESSING"
  | .SHIPPED => "SHIPPED"
  | .CUSTOMS => "CUSTOMS"
  | .IN_TRANSIT => "IN_TRANSIT"
  | .READY_PICKUP => "READY_PICKUP"
  | .DELIVERED => "DELIVERED"
  | .PROBLEM => "PROBLEM"
  | .CANCELLED => "CANCELLED"

/-- `PurchaseOrderStatus` enum (packages/shared/src/types/order.ts). -/
inductive PurchaseOrderStatus
  | CREATED
  | PAID
  | PURCHASING
  | PURCHASED
  | WAREHOUSE_RECEIVED
  | SHIPPED
  | DELIVERED
  | PROBLEM
  | REFUNDED
deriving DecidableEq

/-- The string value of each `PurchaseOrderStatus` member. -/
def pStatusStr : PurchaseOrderStatus → String
  | .CREATED => "CREATED"
  | .PAID => "PAID"
  | .PURCHASING => "PURCHASING"
  | .PURCHASED => "PURCHASED"
  | .WAREHOUSE_RECEIVED => "WAREHOUSE_RECEIVED"
  | .SHIPPED => "SHIPPED"
  | .DELIVERED => "DELIVERED"
  | .PROBLEM => "PROBLEM"
  | .REFUNDED => "REFUNDED"

/-- Row of the `adminDashboardToken` collection. -/
structure TokenRec where
  adminId : Nat
  token : String
  accessKey : String
  expiresAt : Nat
  isUsed : Bool
  createdAt : Nat
  usedAt : Option Nat
  ipAddress : Option String
deriving DecidableEq

/-- Row of the `admin` collection (only the fields the embedded code reads). -/
structure AdminRec where
  id : Nat
  isActive : Bool
deriving DecidableEq

/-- Row of the `user` collection (only the fields the embedded code reads). -/
structure UserRec where
  id : Nat
  telegramId : Nat
  balance : Int
deriving DecidableEq

/-- Row of the `transaction` collection. -/
structure TxRec where
  id : Nat
  userId : Nat
  amount : Int
  type : TransactionType
  status : TransactionStatus
  completedAt : Option Nat
  updatedAt : Nat
  metadata : Option String
deriving DecidableEq

/-- Row of the `shippingOrder` collection. -/
structure ShipOrderRec where
  id : Nat
  userId : Nat
  status : OrderStatus
  trackNumber : Option String
  weight : Int
  totalCost : Int
  createdAt : Nat
  updatedAt : Nat
deriving DecidableEq

/-- Row of the `purchaseOrder` collection. -/
structure PurchOrderRec where
  id : Nat
  userId : Nat
  productName : String
  quantity : Nat
  productPrice : Int
  commission : Int
  prepaymentAmount : Int
  totalCost : Int
  status : PurchaseOrderStatus
  trackNumber : Option String
  createdAt : Nat
  updatedAt : Nat
deriving DecidableEq

/-- Row of the `orderStatusHistory` collection (`createStatusHistory` payload). -/
structure HistoryRec where
  orderId : Nat
  orderType : String
  oldStatus : Option String
  newStatus : String
  comment : Option String
  adminId : Option Nat
deriving DecidableEq

/-- The session object stored under `admin:web_session:` keys. -/
structure SessionData where
  sessionId : String
  adminId : Nat
  accessToken : String
  refreshToken : String
  expiresAt : Nat
  createdAt : Nat
  lastActivity : Nat
  ipAddress : Option String
  userAgent : Option String
deriving DecidableEq

/-- Values stored in Redis by the embedded code, one constructor per payload shape. -/
inductive CacheVal
  /-- token mirror written by `generateDashboardAccess` under `admin:dashboard:` keys -/
  | tokenMirror (adminId : Nat) (accessKey : String) (expiresAt : Nat)
      (isUsed : Bool) (createdAt : Nat) (ipAddress : Option String)
  /-- value read from `admin:pending:` keys by `revokeAdminTokens` -/
  | pendingToken (token : String)
  /-- session object under `admin:web_session:` keys -/
  | session (s : SessionData)
  /-- reverse index under `admin:refresh:` keys -/
  | refreshIdx (sessionId : String) (adminId : Nat)
  /-- `{ ...order, type }` object written by `OrderService.cacheOrder` (shipping) -/
  | shipOrderVal (o : ShipOrderRec) (type : String)
  /-- `{ ...order, type }` object written by `OrderService.cacheOrder` (purchase) -/
  | purchOrderVal (o : PurchOrderRec) (type : String)
  /-- transaction object cached by `PaymentService` -/
  | txVal (t : TxRec)
deriving DecidableEq

/-- One Redis key with its value and the absolute time (ms) its TTL elapses. -/
structure CEntry where
  key : String
  val : CacheVal
  expireAt : Nat
deriving DecidableEq

/-- `setex key ttl value` (`RedisHelper.setWithTTL`): overwrite the key, TTL in seconds. -/
def cacheSet (c : List CEntry) (key : String) (v : CacheVal) (now ttlSeconds : Nat) :
    List CEntry :=
  { key := key, val := v, expireAt := now + ttlSeconds * 1000 } ::
    c.filter (fun e => e.key != key)

/-- `RedisHelper.get`: a key whose TTL has elapsed is gone. -/
def cacheGet (c : List CEntry) (now : Nat) (key : String) : Option CacheVal :=
  match c.find? (fun e => e.key == key) with
  | some e => if now < e.expireAt then some e.val else none
  | none => none

/-- Runtime failures of the embedded code. -/
inductive RErr
  /-- TypeError: `this.redisHelper.del` / `this.redis.del` is not a function -/
  | missingDelMethod
  /-- `throw new Error('User not found')` in `updateUserBalance` -/
  | userNotFound
  /-- `throw new Error('Insufficient balance')` in `updateUserBalance` -/
  | insufficientBalance
  /-- `throw new Error('Order not found')` in `updateShippingOrderStatus` -/
  | orderNotFound
  /-- an ORM `update` on a row that does not exist rejects -/
  | recordNotFound
deriving DecidableEq

/-- The method names the `RedisHelper` class body defines (src/unnamed/part_006). -/
def RedisHelper.methods : List String :=
  ["setWithTTL", "get", "mget", "mset", "sadd", "srem", "smembers", "sismember",
   "hset", "hget", "hgetall", "incr", "incrby", "decr", "lock", "unlock",
   "publish", "deletePattern", "clearCache", "ping", "info"]

/-- A call `redisHelper.del(key)`. `RedisHelper` defines no `del` method, so in JS
the property access yields `undefined` and the call raises a TypeError, whatever
the key or cache state; the deleting branch is dead code guarded by the
membership test. -/
def redisDel (c : List CEntry) (key : String) : Except RErr (List CEntry) :=
  if "del" ∈ RedisHelper.methods then
    .ok (c.filter (fun e => e.key != key))
  else
    .error .missingDelMethod

/-- Durable-store state. `orderReads` is pure instrumentation: a monotone counter
bumped by each durable-store order read in the `get` read path, observing the
"no second durable read" property; no embedded control flow reads it. -/
structure Db where
  admins : List AdminRec
  users : List UserRec
  adminTokens : List TokenRec
  transactions : List TxRec
  shippingOrders : List ShipOrderRec
  purchaseOrders : List PurchOrderRec
  orderStatusHistory : List HistoryRec
  nextShippingOrderId : Nat
  nextPurchaseOrderId : Nat
  orderReads : Nat
deriving DecidableEq

/-- Whole system state: durable store plus Redis. -/
structure Sys where
  db : Db
  cache : List CEntry
deriving DecidableEq

/-- REDIS_KEYS.ADMIN_DASHBOARD_TOKEN (src/unnamed/part_006). -/
def keyDashboardToken (token : String) : String := "admin:dashboard:" ++ token

/-- REDIS_KEYS.ADMIN_PENDING_ACCESS. -/
def keyPendingAccess (adminId : Nat) : String := "admin:pending:" ++ toString adminId

/-- REDIS_KEYS.ADMIN_WEB_SESSION. -/
def keyWebSession (sessionId : String) : String := "admin:web_session:" ++ sessionId

/-- REDIS_KEYS.ADMIN_REFRESH_TOKEN. -/
def keyRefresh (refreshToken : String) : String := "admin:refresh:" ++ refreshToken

/-- REDIS_KEYS.USER_PROFILE. -/
def keyUserProfile (telegramId : Nat) : String := "cache:user:" ++ toString telegramId

/-- REDIS_KEYS.ORDER_DETAILS. -/
def keyOrderDetails (orderId : Nat) : String := "cache:order:" ++ toString orderId

/-- TTL.MEDIUM = 30 minutes, in seconds (src/unnamed/part_006). -/
def TTL_MEDIUM : Nat := 60 * 30

/-- `prisma.adminDashboardToken.findUnique({ where: { token } })`. -/
def dbFindToken (db : Db) (token : String) : Option TokenRec :=
  db.adminTokens.find? (fun t => t.token == token)

/-- `prisma.admin.findUnique({ where: { id } })`. -/
def dbFindAdmin (db : Db) (id : Nat) : Option AdminRec :=
  db.admins.find? (fun a => a.id == id)

/-- `prisma.user.findUnique({ where: { id } })`. -/
def dbFindUser (db : Db) (id : Nat) : Option UserRec :=
  db.users.find? (fun u => u.id == id)

/-- `prisma.transaction.findUnique`-style lookup by id. -/
def dbFindTx (db : Db) (id : Nat) : Option TxRec :=
  db.transactions.find? (fun t => t.id == id)

/-- `prisma.shippingOrder.findUnique({ where: { id } })`. -/
def dbFindShippingOrder (db : Db) (id : Nat) : Option ShipOrderRec :=
  db.shippingOrders.find? (fun o => o.id == id)

/-- `prisma.purchaseOrder.findUnique({ where: { id } })`. -/
def dbFindPurchaseOrder (db : Db) (id : Nat) : Option PurchOrderRec :=
  db.purchaseOrders.find? (fun o => o.id == id)

/-! ## AdminAuthService (apps/bot/src/handlers/commands/index.ts) -/

/-- The string held by an `admin:pending:` value; other shapes stringify to "". -/
def pendingTokenStr : CacheVal → String
  | .pendingToken t => t
  | _ => ""

/-- `AdminAuthService.revokeAdminTokens(adminId)`: mark every unused, unexpired
token of the admin used in the durable store, then read `admin:pending:` and, if
truthy, delete the registered token mirror and the pending key. Nothing in the
repository ever writes an `admin:pending:` key, and `del` does not exist, so the
Redis branch either does nothing (key absent) or raises. -/
def revokeAdminTokens (st : Sys) (now : Nat) (adminId : Nat) :
    Except RErr Unit × Sys :=
  let tokens := st.db.adminTokens.map (fun t =>
    if t.adminId == adminId && !t.isUsed && decide (now < t.expiresAt) then
      { t with isUsed := true, usedAt := some now }
    else t)
  let st1 : Sys := { st with db := { st.db with adminTokens := tokens } }
  match cacheGet st1.cache now (keyPendingAccess adminId) with
  | some v =>
    match redisDel st1.cache (keyDashboardToken (pendingTokenStr v)) with
    | .ok c =>
      match redisDel c (keyPendingAccess adminId) with
      | .ok c2 => (.ok (), { st1 with cache := c2 })
      | .error e => (.error e, { st1 with cache := c })
    | .error e => (.error e, st1)
  | none => (.ok (), st1)

/-- Result object of `generateDashboardAccess` (the `instructions` string elided). -/
structure DashboardAccess where
  dashboardUrl : String
  accessKey : String
  expiresAt : Nat
deriving DecidableEq

/-- `AdminAuthService.generateDashboardAccess(adminId, ipAddress?)`. The two
random opaque strings `generateId(16)` / `generateId(32)` are inputs `accessKey`
and `token`; `baseUrl` is `env.getAdminDashboardUrl()`. -/
def generateDashboardAccess (st : Sys) (now : Nat) (adminId : Nat)
    (accessKey token : String) (ipAddress : Option String) (baseUrl : String) :
    Except RErr DashboardAccess × Sys :=
  match revokeAdminTokens st now adminId with
  | (.error e, st1) => (.error e, st1)
  | (.ok _, st1) =>
    let expiresAt := now + 15 * 60 * 1000
    let rec1 : TokenRec :=
      { adminId, token, accessKey, expiresAt, isUsed := false,
        createdAt := now, usedAt := none, ipAddress }
    let st2 : Sys := { st1 with db :=
      { st1.db with adminTokens := st1.db.adminTokens ++ [rec1] } }
    let mirror := CacheVal.tokenMirror adminId accessKey expiresAt false now ipAddress
    let c := cacheSet st2.cache (keyDashboardToken token) mirror now (15 * 60)
    (.ok { dashboardUrl := baseUrl ++ "/" ++ token, accessKey, expiresAt },
     { st2 with cache := c })

/-- Token refusal reasons; each constructor stands for the corresponding
human-readable error string returned by `validateDashboardToken`. -/
inductive TokenRefusal
  /-- 'Токен не найден или истек' -/
  | notFound
  /-- 'Неверный ключ доступа' -/
  | keyMismatch
  /-- 'Токен уже был использован' -/
  | alreadyUsed
  /-- 'Токен истек' -/
  | expired
deriving DecidableEq

/-- Result object of `validateDashboardToken`. -/
structure ValidateResult where
  valid : Bool
  adminId : Option Nat
  tokenRecord : Option TokenRec
  error : Option TokenRefusal
deriving DecidableEq

/-- The fields of the `tokenData` working object in `validateDashboardToken`
that later checks read (its `createdAt` / `ipAddress` are never read). -/
structure TokenData where
  adminId : Nat
  accessKey : String
  expiresAt : Nat
  isUsed : Bool
deriving DecidableEq

/-- `AdminAuthService.markTokenAsExpired(token)`: a single `redisHelper.del`. -/
def markTokenAsExpired (st : Sys) (token : String) : Except RErr Unit × Sys :=
  match redisDel st.cache (keyDashboardToken token) with
  | .ok c => (.ok (), { st with cache := c })
  | .error e => (.error e, st)

/-- The checks `validateDashboardToken` runs once `tokenData` is resolved
(from the cache or from the durable fallback), in source order: access key,
`isUsed`, expiry (the expired branch calls `markTokenAsExpired`), then the final
durable fetch of the full record on success. -/
def validateTokenChecks (st : Sys) (now : Nat) (token accessKey : String)
    (td : TokenData) : Except RErr ValidateResult × Sys :=
  if td.accessKey ≠ accessKey then
    (.ok { valid := false, adminId := none, tokenRecord := none,
           error := some .keyMismatch }, st)
  else if td.isUsed then
    (.ok { valid := false, adminId := none, tokenRecord := none,
           error := some .alreadyUsed }, st)
  else if td.expiresAt < now then
    match markTokenAsExpired st token with
    | (.error e, st1) => (.error e, st1)
    | (.ok _, st1) =>
      (.ok { valid := false, adminId := none, tokenRecord := none,
             error := some .expired }, st1)
  else
    (.ok { valid := true, adminId := some td.adminId,
           tokenRecord := dbFindToken st.db token, error := none }, st)

/-- `AdminAuthService.validateDashboardToken(token, accessKey, ipAddress?)`:
cache-first lookup of the token mirror, durable fallback on miss, then the
shared checks. -/
def validateDashboardToken (st : Sys) (now : Nat) (token accessKey : String) :
    Except RErr ValidateResult × Sys :=
  let fromCache : Option TokenData :=
    match cacheGet st.cache now (keyDashboardToken token) with
    | some (.tokenMirror aid key exp used _ _) =>
      some { adminId := aid, accessKey := key, expiresAt := exp, isUsed := used }
    | _ => none
  match fromCache with
  | some td => validateTokenChecks st now token accessKey td
  | none =>
    match dbFindToken st.db token with
    | none =>
      (.ok { valid := false, adminId := none, tokenRecord := none,
             error := some .notFound }, st)
    | some dbTok =>
      validateTokenChecks st now token accessKey
        { adminId := dbTok.adminId, accessKey := dbTok.accessKey,
          expiresAt := dbTok.expiresAt, isUsed := dbTok.isUsed }

/-- `AdminAuthService.markTokenAsUsed(token, ipAddress?)`: durable `updateMany`
setting `isUsed`/`usedAt` (and `ipAddress` when provided; an absent argument
leaves the column untouched), then `redisHelper.del` of the mirror. -/
def markTokenAsUsed (st : Sys) (now : Nat) (token : String)
    (ipAddress : Option String) : Except RErr Unit × Sys :=
  let tokens := st.db.adminTokens.map (fun t =>
    if t.token == token then
      { t with
        isUsed := true, usedAt := some now,
        ipAddress := (match ipAddress with | some v => some v | none => t.ipAddress) }
    else t)
  let st1 : Sys := { st with db := { st.db with adminTokens := tokens } }
  match redisDel st1.cache (keyDashboardToken token) with
  | .ok c => (.ok (), { st1 with cache := c })
  | .error e => (.error e, st1)

/-- Result object of `createWebSession`. -/
structure WebSessionResult where
  sessionId : String
  accessToken : String
  refreshToken : String
  expiresAt : Nat
deriving DecidableEq

/-- `AdminAuthService.createWebSession(adminId, ipAddress?, userAgent?)`; the
three `generateId` strings are inputs. -/
def createWebSession (st : Sys) (now : Nat) (adminId : Nat)
    (sessionId accessToken refreshToken : String)
    (ipAddress userAgent : Option String) : Except RErr WebSessionResult × Sys :=
  let expiresAt := now + 7 * 24 * 60 * 60 * 1000
  let sd : SessionData :=
    { sessionId, adminId, accessToken, refreshToken, expiresAt,
      createdAt := now, lastActivity := now, ipAddress, userAgent }
  let c1 := cacheSet st.cache (keyWebSession sessionId) (.session sd) now
    (7 * 24 * 60 * 60)
  let c2 := cacheSet c1 (keyRefresh refreshToken) (.refreshIdx sessionId adminId) now
    (30 * 24 * 60 * 60)
  (.ok { sessionId, accessToken, refreshToken, expiresAt }, { st with cache := c2 })

/-- Result object of `validateWebSession`. -/
structure WebValidateResult where
  valid : Bool
  admin : Option AdminRec
  session : Option SessionData
deriving DecidableEq

/-- `AdminAuthService.validateWebSession(sessionId)`. A stored value of a shape
other than a session object cannot arise from this service's writes under a
`admin:web_session:` key and is treated as a miss. -/
def validateWebSession (st : Sys) (now : Nat) (sessionId : String) :
    Except RErr WebValidateResult × Sys :=
  match cacheGet st.cache now (keyWebSession sessionId) with
  | some (.session sd) =>
    if sd.expiresAt < now then
      match redisDel st.cache (keyWebSession sessionId) with
      | .ok c => (.ok { valid := false, admin := none, session := none },
                  { st with cache := c })
      | .error e => (.error e, st)
    else
      match dbFindAdmin st.db sd.adminId with
      | none =>
        match redisDel st.cache (keyWebSession sessionId) with
        | .ok c => (.ok { valid := false, admin := none, session := none },
                    { st with cache := c })
        | .error e => (.error e, st)
      | some a =>
        if !a.isActive then
          match redisDel st.cache (keyWebSession sessionId) with
          | .ok c => (.ok { valid := false, admin := none, session := none },
                      { st with cache := c })
          | .error e => (.error e, st)
        else
          let sd2 := { sd with lastActivity := now }
          let c := cacheSet st.cache (keyWebSession sessionId) (.session sd2) now
            (7 * 24 * 60 * 60)
          (.ok { valid := true, admin := some a, session := some sd2 },
           { st with cache := c })
  | some _ => (.ok { valid := false, admin := none, session := none }, st)
  | none => (.ok { valid := false, admin := none, session := none }, st)

/-! ## PaymentService (src/unnamed/part_009) -/

/-- The `'add' | 'subtract'` operation argument of `updateUserBalance`. -/
inductive BalanceOp
  | add
  | subtract
deriving DecidableEq

/-- `PaymentService.updateUserBalance(userId, amount, operation)`: read the user,
compute the new balance, reject a subtraction that would go negative, persist the
new balance, then `redis.del` the profile cache key (which raises: no `del`). -/
def updateUserBalance (st : Sys) (userId : Nat) (amount : Int)
    (operation : BalanceOp) : Except RErr Unit × Sys :=
  match dbFindUser st.db userId with
  | none => (.error .userNotFound, st)
  | some currentUser =>
    let newBalance :=
      match operation with
      | .add => currentUser.balance + amount
      | .subtract => currentUser.balance - amount
    if newBalance < 0 ∧ operation = .subtract then
      (.error .insufficientBalance, st)
    else
      let users := st.db.users.map (fun u =>
        if u.id == userId then { u with balance := newBalance } else u)
      let st1 : Sys := { st with db := { st.db with users := users } }
      match redisDel st1.cache (keyUserProfile currentUser.telegramId) with
      | .ok c => (.ok (), { st1 with cache := c })
      | .error e => (.error e, st1)

/-- `PaymentService.processCompletedTransaction(transaction)`: dispatch on the
transaction type; PAYMENT/REFUND/BONUS credit, WITHDRAWAL debits. -/
def processCompletedTransaction (st : Sys) (t : TxRec) : Except RErr Unit × Sys :=
  match t.type with
  | .PAYMENT => updateUserBalance st t.userId t.amount .add
  | .REFUND => updateUserBalance st t.userId t.amount .add
  | .BONUS => updateUserBalance st t.userId t.amount .add
  | .WITHDRAWAL => updateUserBalance st t.userId t.amount .subtract

/-- `PaymentService.updateTransactionStatus(transactionId, status, metadata?)`:
persist the new status (plus `completedAt` when COMPLETED and `metadata` when
given), then — with no check of the previous status — run the balance side
effect whenever the new status is COMPLETED, then refresh the transaction
cache entry. -/
def updateTransactionStatus (st : Sys) (now : Nat) (transactionId : Nat)
    (status : TransactionStatus) (metadata : Option String) :
    Except RErr TxRec × Sys :=
  match dbFindTx st.db transactionId with
  | none => (.error .recordNotFound, st)
  | some t0 =>
    let t1 : TxRec := { t0 with
      status := status, updatedAt := now,
      completedAt := (if status = .COMPLETED then some now else t0.completedAt),
      metadata := (match metadata with | some m => some m | none => t0.metadata) }
    let txs := st.db.transactions.map (fun t => if t.id == transactionId then t1 else t)
    let st1 : Sys := { st with db := { st.db with transactions := txs } }
    match (if status = .COMPLETED then processCompletedTransaction st1 t1
           else (.ok (), st1)) with
    | (.error e, st2) => (.error e, st2)
    | (.ok _, st2) =>
      let c := cacheSet st2.cache ("transaction:" ++ toString transactionId)
        (.txVal t1) now TTL_MEDIUM
      (.ok t1, { st2 with cache := c })

/-! ## OrderService (src/unnamed/part_001) -/

/-- `OrderService.createStatusHistory(data)`: one appended history row. -/
def createStatusHistory (db : Db) (h : HistoryRec) : Db :=
  { db with orderStatusHistory := db.orderStatusHistory ++ [h] }

/-- `OrderService.cacheOrder(orderId, order, type)`: store `{ ...order, type }`
under the order-details key with TTL.MEDIUM. -/
def cacheOrder (c : List CEntry) (now orderId : Nat) (v : CacheVal) : List CEntry :=
  cacheSet c (keyOrderDetails orderId) v now TTL_MEDIUM

/-- `OrderService.getCachedOrder(orderId, type)` for the shipping kind: return
the cached object when its `type` field matches. -/
def getCachedShippingOrder (c : List CEntry) (now orderId : Nat) :
    Option (ShipOrderRec × String) :=
  match cacheGet c now (keyOrderDetails orderId) with
  | some (.shipOrderVal o ty) => if ty == "shipping" then some (o, ty) else none
  | _ => none

/-- `OrderService.getCachedOrder(orderId, type)` for the purchase kind. -/
def getCachedPurchaseOrder (c : List CEntry) (now orderId : Nat) :
    Option (PurchOrderRec × String) :=
  match cacheGet c now (keyOrderDetails orderId) with
  | some (.purchOrderVal o ty) => if ty == "purchase" then some (o, ty) else none
  | _ => none

/-- `OrderService.clearOrderCache(orderId, type)`: a single `redis.del` of the
order-details key (the `type` argument does not enter the key). -/
def clearOrderCache (st : Sys) (orderId : Nat) : Except RErr Unit × Sys :=
  match redisDel st.cache (keyOrderDetails orderId) with
  | .ok c => (.ok (), { st with cache := c })
  | .error e => (.error e, st)

/-- What a `get` call hands back: the order row, plus the `type` discriminator
field that is present exactly when the value came from the cache (the cached
object is the spread `{ ...order, type }`; a durable read has no such field). -/
structure ShipOrderView where
  order : ShipOrderRec
  typeField : Option String
deriving DecidableEq

/-- `OrderService.getShippingOrder(orderId)`: cache-first; on miss, durable read
(counted by the `orderReads` instrumentation), repopulating the cache on a hit. -/
def getShippingOrder (st : Sys) (now : Nat) (orderId : Nat) :
    Except RErr (Option ShipOrderView) × Sys :=
  match getCachedShippingOrder st.cache now orderId with
  | some (o, ty) => (.ok (some { order := o, typeField := some ty }), st)
  | none =>
    let st1 : Sys := { st with db := { st.db with orderReads := st.db.orderReads + 1 } }
    match dbFindShippingOrder st1.db orderId with
    | none => (.ok none, st1)
    | some o =>
      let c := cacheOrder st1.cache now orderId (.shipOrderVal o "shipping")
      (.ok (some { order := o, typeField := none }), { st1 with cache := c })

/-- Input of `createShippingOrder` (fields the embedding carries). -/
structure ShippingOrderCreateData where
  userId : Nat
  weight : Int
  totalCost : Int
deriving DecidableEq

/-- `OrderService.createShippingOrder(data)`: persist a new order in CREATED
status (id from the store's sequence), append the initial history row, cache the
order. Cannot fail. -/
def createShippingOrder (st : Sys) (now : Nat) (data : ShippingOrderCreateData) :
    ShipOrderRec × Sys :=
  let oid := st.db.nextShippingOrderId
  let order : ShipOrderRec :=
    { id := oid, userId := data.userId, status := .CREATED, trackNumber := none,
      weight := data.weight, totalCost := data.totalCost,
      createdAt := now, updatedAt := now }
  let db1 := { st.db with
    shippingOrders := st.db.shippingOrders ++ [order],
    nextShippingOrderId := oid + 1 }
  let db2 := createStatusHistory db1
    { orderId := oid, orderType := "shipping", oldStatus := none,
      newStatus := "CREATED", comment := some "Заказ создан", adminId := none }
  let c := cacheOrder st.cache now oid (.shipOrderVal order "shipping")
  (order, { db := db2, cache := c })

/-- Input of `createPurchaseOrder` (fields the embedding carries). -/
structure PurchaseOrderCreateData where
  userId : Nat
  productName : String
  quantity : Nat
  productPrice : Int
  commission : Int
  prepaymentAmount : Int
deriving DecidableEq

/-- `OrderService.createPurchaseOrder(data)`: `totalCost = productPrice +
commission`, persist in CREATED status, append the initial history row, cache. -/
def createPurchaseOrder (st : Sys) (now : Nat) (data : PurchaseOrderCreateData) :
    PurchOrderRec × Sys :=
  let totalCost := data.productPrice + data.commission
  let oid := st.db.nextPurchaseOrderId
  let order : PurchOrderRec :=
    { id := oid, userId := data.userId, productName := data.productName,
      quantity := data.quantity, productPrice := data.productPrice,
      commission := data.commission, prepaymentAmount := data.prepaymentAmount,
      totalCost := totalCost, status := .CREATED, trackNumber := none,
      createdAt := now, updatedAt := now }
  let db1 := { st.db with
    purchaseOrders := st.db.purchaseOrders ++ [order],
    nextPurchaseOrderId := oid + 1 }
  let db2 := createStatusHistory db1
    { orderId := oid, orderType := "purchase", oldStatus := none,
      newStatus := "CREATED", comment := some "Заявка на выкуп создана",
      adminId := none }
  let c := cacheOrder st.cache now oid (.purchOrderVal order "purchase")
  (order, { db := db2, cache := c })

/-- `OrderService.updateShippingOrderStatus(orderId, newStatus, comment?,
adminId?)`: load the current order (cache-first), fail on absence, persist the
new status, append one history row with `oldStatus` taken from the loaded
order's status, refresh the cache entry. -/
def updateShippingOrderStatus (st : Sys) (now : Nat) (orderId : Nat)
    (newStatus : OrderStatus) (comment : Option String) (adminId : Option Nat) :
    Except RErr ShipOrderRec × Sys :=
  match getShippingOrder st now orderId with
  | (.error e, st1) => (.error e, st1)
  | (.ok none, st1) => (.error .orderNotFound, st1)
  | (.ok (some cur), st1) =>
    match dbFindShippingOrder st1.db orderId with
    | none => (.error .recordNotFound, st1)
    | some o0 =>
      let updated : ShipOrderRec := { o0 with status := newStatus, updatedAt := now }
      let orders := st1.db.shippingOrders.map (fun o =>
        if o.id == orderId then updated else o)
      let db1 := { st1.db with shippingOrders := orders }
      let db2 := createStatusHistory db1
        { orderId := orderId, orderType := "shipping",
          oldStatus := some (statusStr cur.order.status),
          newStatus := statusStr newStatus, comment := comment, adminId := adminId }
      let c := cacheOrder st1.cache now orderId (.shipOrderVal updated "shipping")
      (.ok updated, { db := db2, cache := c })

/-- The `'shipping' | 'purchase'` discriminator argument. -/
inductive OrderKind
  | shipping
  | purchase
deriving DecidableEq

/-- `OrderService.addTrackingNumber(orderId, trackNumber, orderType)`: persist
the tracking number, then `clearOrderCache` (whose `redis.del` raises). -/
def addTrackingNumber (st : Sys) (orderId : Nat) (trackNumber : String)
    (orderType : OrderKind) : Except RErr Unit × Sys :=
  match orderType with
  | .shipping =>
    match dbFindShippingOrder st.db orderId with
    | none => (.error .recordNotFound, st)
    | some _ =>
      let orders := st.db.shippingOrders.map (fun o =>
        if o.id == orderId then { o with trackNumber := some trackNumber } else o)
      clearOrderCache { st with db := { st.db with shippingOrders := orders } } orderId
  | .purchase =>
    match dbFindPurchaseOrder st.db orderId with
    | none => (.error .recordNotFound, st)
    | some _ =>
      let orders := st.db.purchaseOrders.map (fun o =>
        if o.id == orderId then { o with trackNumber := some trackNumber } else o)
      clearOrderCache { st with db := { st.db with purchaseOrders := orders } } orderId

/-! ## Observation helpers (statement vocabulary, not source code) -/

/-- The `valid` flag of a validation outcome, `none` when the call raised. -/
def vdtValid (r : Except RErr ValidateResult) : Option Bool :=
  match r with
  | .ok v => some v.valid
  | .error _ => none

/-- The refusal reason of a validation outcome, `none` when the call raised. -/
def vdtError (r : Except RErr ValidateResult) : Option (Option TokenRefusal) :=
  match r with
  | .ok v => some v.error
  | .error _ => none

/-- The stored balance of a user id. -/
def userBalance (db : Db) (id : Nat) : Option Int :=
  (dbFindUser db id).map (fun u => u.balance)

/-- The stored status of a transaction id. -/
def txStatusOf (db : Db) (id : Nat) : Option TransactionStatus :=
  (dbFindTx db id).map (fun t => t.status)

/-- The stored `isUsed` flag of a dashboard token. -/
def tokenUsed (db : Db) (token : String) : Option Bool :=
  (dbFindToken db token).map (fun t => t.isUsed)

/-- The signed effect of a completed transaction on its owner's balance:
PAYMENT/REFUND/BONUS credit, WITHDRAWAL debits. -/
def signedAmount (ty : TransactionType) (a : Int) : Int :=
  match ty with
  | .WITHDRAWAL => -a
  | _ => a

/-- An empty store with a single active admin (id 7), used as a base scenario. -/
def st0 : Sys :=
  { db := { admins := [{ id := 7, isActive := true }], users := [], adminTokens := [],
            transactions := [], shippingOrders := [], purchaseOrders := [],
            orderStatusHistory := [], nextShippingOrderId := 1,
            nextPurchaseOrderId := 1, orderReads := 0 },
    cache := [] }

/-! ## Scenario states and C6 vocabulary -/

/-- State after `issue(7)` returned token "tok1" / key "key1" at time 0. -/
def c1st1 : Sys := (generateDashboardAccess st0 0 7 "key1" "tok1" none "https://dash").2

/-- State after a second `issue(7)` returned "tok2" / "key2" at time 60000. -/
def c1st2 : Sys := (generateDashboardAccess c1st1 60000 7 "key2" "tok2" none "https://dash").2

/-- State after `issue(7)` returned token "tokA" / key "keyA" at time 0. -/
def c4st1 : Sys := (generateDashboardAccess st0 0 7 "keyA" "tokA" none "https://dash").2

/-- A token whose 15-minute expiry (at 1000) already passed. -/
def c5tok : TokenRec :=
  { adminId := 7, token := "tokX", accessKey := "keyX", expiresAt := 1000,
    isUsed := false, createdAt := 0, usedAt := none, ipAddress := none }

/-- Store holding only the expired token `c5tok`, empty cache. -/
def c5st : Sys := { st0 with db := { st0.db with adminTokens := [c5tok] } }

/-- A PAYMENT transaction of amount 50 that is already COMPLETED. -/
def c2tx : TxRec where
  id := 5
  userId := 1
  amount := 50
  type := .PAYMENT
  status := .COMPLETED
  completedAt := some 10
  updatedAt := 10
  metadata := none

/-- A user with balance 150 whose PAYMENT transaction 5 (amount 50) is already
COMPLETED — its credit has been applied once. -/
def c2st : Sys :=
  { st0 with db := { st0.db with
      users := [{ id := 1, telegramId := 11, balance := 150 }],
      transactions := [c2tx] } }

/-- A PENDING WITHDRAWAL transaction of amount 50. -/
def c3tx : TxRec where
  id := 6
  userId := 1
  amount := 50
  type := .WITHDRAWAL
  status := .PENDING
  completedAt := none
  updatedAt := 0
  metadata := none

/-- A user with balance 10 and a PENDING WITHDRAWAL of 50 (transaction 6). -/
def c3st : Sys :=
  { st0 with db := { st0.db with
      users := [{ id := 1, telegramId := 11, balance := 10 }],
      transactions := [c3tx] } }

/-- A web session whose own `expiresAt` (1000) has passed. -/
def c7sd1 : SessionData where
  sessionId := "s1"
  adminId := 3
  accessToken := "at1"
  refreshToken := "rt1"
  expiresAt := 1000
  createdAt := 0
  lastActivity := 0
  ipAddress := none
  userAgent := none

/-- A live session owned by admin 4, who is inactive. -/
def c7sd2 : SessionData where
  sessionId := "s2"
  adminId := 4
  accessToken := "at2"
  refreshToken := "rt2"
  expiresAt := 1000000000
  createdAt := 0
  lastActivity := 0
  ipAddress := none
  userAgent := none

/-- A live session owned by active admin 3. -/
def c7sd3 : SessionData where
  sessionId := "s3"
  adminId := 3
  accessToken := "at3"
  refreshToken := "rt3"
  expiresAt := 1000000000
  createdAt := 0
  lastActivity := 0
  ipAddress := none
  userAgent := none

/-- Store with active admin 3, inactive admin 4, and the three sessions above
(storage TTLs still live). -/
def c7st : Sys :=
  { db := { admins := [{ id := 3, isActive := true }, { id := 4, isActive := false }],
            users := [], adminTokens := [], transactions := [], shippingOrders := [],
            purchaseOrders := [], orderStatusHistory := [], nextShippingOrderId := 1,
            nextPurchaseOrderId := 1, orderReads := 0 },
    cache := [{ key := keyWebSession "s1", val := .session c7sd1, expireAt := 1000000000 },
              { key := keyWebSession "s2", val := .session c7sd2, expireAt := 1000000000 },
              { key := keyWebSession "s3", val := .session c7sd3, expireAt := 1000000000 }] }

/-- A shipping order sitting in the durable store (id 5), not cached. -/
def c8ord : ShipOrderRec where
  id := 5
  userId := 1
  status := .PAID
  trackNumber := none
  weight := 2
  totalCost := 100
  createdAt := 0
  updatedAt := 0

/-- Store holding only `c8ord`, empty cache, read counter at 0. -/
def c8st : Sys := { st0 with db := { st0.db with shippingOrders := [c8ord] } }

/-- First `get(5)`: cache miss, durable read, cache populated. -/
def c8r1 : Except RErr (Option ShipOrderView) × Sys := getShippingOrder c8st 100 5

/-- Second `get(5)` with no intervening mutation. -/
def c8r2 : Except RErr (Option ShipOrderView) × Sys := getShippingOrder c8r1.2 200 5

/-- The balance `updateUserBalance` computes for each operation. -/
def balOpResult (b amount : Int) : BalanceOp → Int
  | .add => b + amount
  | .subtract => b - amount

/-- A live `admin:pending:7` cache entry registering token "tokZ". -/
def c9entry : CEntry where
  key := keyPendingAccess 7
  val := .pendingToken "tokZ"
  expireAt := 1000000

/-- Redis state holding an `admin:pending:7` value, so `revokeAdminTokens(7)`
reaches its cache-deletion branch. -/
def c9st : Sys := { st0 with cache := [c9entry] }

/-- One `transition` call's arguments (each call carries its own clock). -/
structure TransitionCall where
  now : Nat
  newStatus : OrderStatus
  comment : Option String
  adminId : Option Nat
deriving DecidableEq

/-- Run a sequence of `updateShippingOrderStatus` calls against one order. -/
def runTransitions (orderId : Nat) : Sys → List TransitionCall → Sys
  | st, [] => st
  | st, c :: rest =>
    runTransitions orderId
      (updateShippingOrderStatus st c.now orderId c.newStatus c.comment c.adminId).2
      rest

/-- The durable history rows of one shipping order, in insertion order. -/
def historyFor (db : Db) (oid : Nat) : List HistoryRec :=
  db.orderStatusHistory.filter
    (fun h => h.orderId == oid && h.orderType == "shipping")

/-- Each row's oldStatus equals the preceding row's newStatus; `prev` seeds the
first row (`none` for a history that must open with the creation row). -/
def chainedFrom : Option String → List HistoryRec → Prop
  | _, [] => True
  | prev, h :: rest => h.oldStatus = prev ∧ chainedFrom (some h.newStatus) rest

/-- The history rows a list of transition calls appends, starting from `cur`. -/
def transRows (oid : Nat) (cur : OrderStatus) : List TransitionCall → List HistoryRec
  | [] => []
  | c :: rest =>
    { orderId := oid, orderType := "shipping", oldStatus := some (statusStr cur),
      newStatus := statusStr c.newStatus, comment := c.comment,
      adminId := c.adminId } :: transRows oid c.newStatus rest

/-- Invariant tying one shipping order to the durable store and its cache
mirror: the row is found under its id, it is the only row with that id, and any
cache entry under its order-details key holds exactly its current value. -/
structure OrderInv (oid : Nat) (o : ShipOrderRec) (st : Sys) : Prop where
  hid : o.id = oid
  hdb : dbFindShippingOrder st.db oid = some o
  hall : ∀ x ∈ st.db.shippingOrders, x.id = oid → x = o
  hcache : ∀ e ∈ st.cache, e.key = keyOrderDetails oid →
    e.val = .shipOrderVal o "shipping"

/-- The create payload of the C6 witness scenario. -/
def c6data : ShippingOrderCreateData where
  userId := 1
  weight := 5
  totalCost := 1000

/-- Two transition calls: to PAID (admin 2, comment), then to SHIPPED. -/
def c6calls : List TransitionCall :=
  [{ now := 10, newStatus := .PAID, comment := some "paid by card", adminId := some 2 },
   { now := 20, newStatus := .SHIPPED, comment := none, adminId := none }]

/-! ## Shared list lemmas -/

theorem redisDel_error (c : List CEntry) (k : String) :
    redisDel c k = .error .missingDelMethod := by
  unfold redisDel
  rw [if_neg]
  decide

theorem find?_map_update {α : Type} (q : α → Bool) (u : α) (hq : q u = true) :
    ∀ (l : List α) (a : α), l.find? q = some a →
      (l.map (fun x => if q x then u else x)).find? q = some u := by
  intro l
  induction l with
  | nil => intro a h; simp at h
  | cons b t ih =>
    intro a h
    by_cases hb : q b = true
    · simp [List.find?_cons, hb, hq]
    · have hb' : q b = false := by simpa using hb
      rw [List.find?_cons_of_neg _ (by simp [hb'])] at h
      simpa [List.find?_cons, hb', hq, hb] using ih a h

theorem find?_map_modify {α : Type} (q : α → Bool) (f : α → α)
    (hpres : ∀ x, q x = true → q (f x) = true) :
    ∀ (l : List α) (a : α), l.find? q = some a →
      (l.map (fun x => if q x then f x else x)).find? q = some (f a) := by
  intro l
  induction l with
  | nil => intro a h; simp at h
  | cons b t ih =>
    intro a h
    by_cases hb : q b = true
    · rw [List.find?_cons_of_pos _ hb] at h
      cases h
      rw [List.map_cons, if_pos hb, List.find?_cons_of_pos _ (hpres b hb)]
    · have hb' : q b = false := by simpa using hb
      rw [List.find?_cons_of_neg _ (by simp [hb'])] at h
      rw [List.map_cons, if_neg (by simp [hb']),
        List.find?_cons_of_neg _ (by simp [hb'])]
      exact ih a h

theorem find?_append_none {α : Type} (p : α → Bool) (l1 l2 : List α)
    (h : l1.find? p = none) : (l1 ++ l2).find? p = l2.find? p := by
  induction l1 with
  | nil => simp
  | cons b t ih =>
    rw [List.find?_cons] at h
    cases hb : p b with
    | true => simp [hb] at h
    | false =>
      simp only [hb] at h
      simpa [List.find?_cons, hb] using ih h

/-! ## Claim theorems on the concrete scenarios -/

/-- C1: after a second issue for the same admin, validating the first token with
its correct key must return AlreadyUsed or NotFound and never valid:true. In the
code, the second issue marks the first token used in the durable store, but its
cache mirror survives — nothing ever writes the `admin:pending:` index that
`revokeAdminTokens` relies on to find and delete it — so the cache-first path of
`validateDashboardToken` still answers valid:true; only the durable-fallback
path (cache cleared) answers AlreadyUsed. -/
theorem c1_second_issue_leaves_first_token_valid :
    tokenUsed c1st2.db "tok1" = some true ∧
    (validateDashboardToken c1st2 120000 "tok1" "key1").1 =
      .ok { valid := true, adminId := some 7,
            tokenRecord := dbFindToken c1st2.db "tok1", error := none } ∧
    vdtError (validateDashboardToken { c1st2 with cache := [] } 120000
      "tok1" "key1").1 = some (some .alreadyUsed) := by
  decide

/-- C4: consuming a validated token must mark it used durably, delete its cache
mirror, and make every later validate return AlreadyUsed. In the code,
`markTokenAsUsed` persists `isUsed` but then raises at `redisHelper.del` (no
such method), the mirror survives, and a subsequent validate with the correct
key still returns valid:true through the cache-first path. -/
theorem c4_consume_crashes_and_token_stays_valid :
    vdtValid (validateDashboardToken c4st1 500 "tokA" "keyA").1 = some true ∧
    (markTokenAsUsed c4st1 1000 "tokA" none).1 = .error .missingDelMethod ∧
    tokenUsed (markTokenAsUsed c4st1 1000 "tokA" none).2.db "tokA" = some true ∧
    (cacheGet (markTokenAsUsed c4st1 1000 "tokA" none).2.cache 2000
      (keyDashboardToken "tokA")).isSome = true ∧
    vdtValid (validateDashboardToken (markTokenAsUsed c4st1 1000 "tokA" none).2
      2000 "tokA" "keyA").1 = some true := by
  decide

/-- C5 counterexample: the claim says an expired token yields the Expired
refusal for every supplied key, never KeyMismatch. In the code the key check
runs first, so a wrong key yields KeyMismatch; and with the correct key the
Expired branch raises at `markTokenAsExpired`'s `redisHelper.del` instead of
returning the Expired refusal. -/
theorem c5_expired_token_keymismatch_cex :
    (validateDashboardToken c5st 2000 "tokX" "wrong").1 =
      .ok { valid := false, adminId := none, tokenRecord := none,
            error := some .keyMismatch } ∧
    (validateDashboardToken c5st 2000 "tokX" "keyX").1 =
      .error .missingDelMethod := by
  decide

/-- C2 counterexample: replaying `updateTransactionStatus(5, COMPLETED)` on an
already-COMPLETED transaction applies the credit a second time (150 → 200):
the code never inspects the previous status before running the balance side
effect. -/
theorem c2_replay_completed_double_applies_cex :
    txStatusOf c2st.db 5 = some .COMPLETED ∧
    userBalance (updateTransactionStatus c2st 20 5 .COMPLETED none).2.db 1 =
      some 200 := by
  decide

/-- C3 counterexample: completing an over-balance WITHDRAWAL does raise
InsufficientBalance with the balance untouched, but the claim's "no state at
all has been persisted" is false: the transaction row was already updated to
COMPLETED before the balance check ran. -/
theorem c3_status_persisted_before_rejection_cex :
    (updateTransactionStatus c3st 20 6 .COMPLETED none).1 =
      .error .insufficientBalance ∧
    userBalance (updateTransactionStatus c3st 20 6 .COMPLETED none).2.db 1 =
      some 10 ∧
    txStatusOf (updateTransactionStatus c3st 20 6 .COMPLETED none).2.db 6 =
      some .COMPLETED := by
  decide

/-- C7: `validateWebSession` must return valid:false on an expired session or an
inactive owner, deleting the key, and on success refresh `lastActivity` and
re-persist with the 7-day TTL leaving `expiresAt` unchanged. In the code both
deleting branches raise at `redisHelper.del` (no such method) and leave the key
behind; the success branch behaves as claimed (shown on session "s3"). -/
theorem c7_session_deleting_branches_crash :
    (validateWebSession c7st 2000 "s1").1 = .error .missingDelMethod ∧
    (cacheGet (validateWebSession c7st 2000 "s1").2.cache 2000
      (keyWebSession "s1")).isSome = true ∧
    (validateWebSession c7st 2000 "s2").1 = .error .missingDelMethod ∧
    (cacheGet (validateWebSession c7st 2000 "s2").2.cache 2000
      (keyWebSession "s2")).isSome = true ∧
    (validateWebSession c7st 2000 "s3").1 =
      .ok { valid := true, admin := some { id := 3, isActive := true },
            session := some { c7sd3 with lastActivity := 2000 } } ∧
    cacheGet (validateWebSession c7st 2000 "s3").2.cache 2000 (keyWebSession "s3") =
      some (.session { c7sd3 with lastActivity := 2000 }) := by
  decide

/-- C8 counterexample: the second `get` indeed performs no durable-store read
(the read counter stays at 1), but the two results are not bit-identical: the
cached copy returned by the second call carries the extra `type` discriminator
field that `cacheOrder` spreads into the stored object. -/
theorem c8_get_twice_not_bit_identical_cex :
    c8st.db.orderReads = 0 ∧
    c8r1.1 = .ok (some { order := c8ord, typeField := none }) ∧
    c8r1.2.db.orderReads = 1 ∧
    c8r2.1 = .ok (some { order := c8ord, typeField := some "shipping" }) ∧
    c8r2.2.db.orderReads = 1 ∧
    c8r1.1 ≠ c8r2.1 := by
  decide

/-- C10: the purchase order persisted by `createPurchaseOrder` has
`totalCost = productPrice + commission` exactly; `quantity` plays no part in it. -/
theorem c10_totalCost_productPrice_plus_commission (st : Sys) (now : Nat)
    (data : PurchaseOrderCreateData) :
    ((createPurchaseOrder st now data).1).totalCost =
      data.productPrice + data.commission ∧
    (createPurchaseOrder st now data).2.db.purchaseOrders =
      st.db.purchaseOrders ++ [(createPurchaseOrder st now data).1] ∧
    ∀ q : Nat, ((createPurchaseOrder st now { data with quantity := q }).1).totalCost =
      ((createPurchaseOrder st now data).1).totalCost :=
  ⟨rfl, rfl, fun _ => rfl⟩

/-- When the debit guard passes, `updateUserBalance` persists the new balance
and then raises at `redis.del`; the whole call is this pair. -/
theorem updateUserBalance_eq (st : Sys) (uid : Nat) (amount : Int)
    (op : BalanceOp) (u : UserRec) (hu : dbFindUser st.db uid = some u)
    (hok : op = .subtract → amount ≤ u.balance) :
    updateUserBalance st uid amount op =
      (.error .missingDelMethod,
       { st with db := { st.db with users := st.db.users.map (fun x =>
           if x.id == uid then { x with balance := balOpResult u.balance amount op }
           else x) } }) := by
  cases op with
  | add =>
    simp only [updateUserBalance, hu, redisDel_error]
    rw [if_neg (by simp)]
    rfl
  | subtract =>
    simp only [updateUserBalance, hu, redisDel_error]
    rw [if_neg (by rintro ⟨hlt, -⟩; have := hok rfl; omega)]
    rfl

/-- The stored balance of the found user after the per-user balance write. -/
theorem userBalance_after_map (db : Db) (uid : Nat) (nb : Int) (u : UserRec)
    (hu : dbFindUser db uid = some u) :
    userBalance { db with users := db.users.map (fun x =>
        if x.id == uid then { x with balance := nb } else x) } uid = some nb := by
  have hu' : db.users.find? (fun x => x.id == uid) = some u := hu
  have hfind := find?_map_modify (fun x => x.id == uid)
    (fun x => { x with balance := nb }) (by intro x hx; simpa using hx)
    db.users u hu'
  simp only [userBalance, dbFindUser, hfind]
  rfl

/-- When the debit guard passes, the balance side effect of a completed
transaction persists the new balance and then raises at the cache delete. -/
theorem processCompleted_eq (st1 : Sys) (t1 : TxRec) (u : UserRec)
    (hu : dbFindUser st1.db t1.userId = some u)
    (hok : t1.type = .WITHDRAWAL → t1.amount ≤ u.balance) :
    processCompletedTransaction st1 t1 =
      (.error .missingDelMethod,
       { st1 with db := { st1.db with users := st1.db.users.map (fun x =>
           if x.id == t1.userId then
             { x with balance := u.balance + signedAmount t1.type t1.amount }
           else x) } }) := by
  cases hty : t1.type with
  | PAYMENT =>
    simp only [processCompletedTransaction, hty]
    rw [updateUserBalance_eq st1 t1.userId t1.amount .add u hu (fun h => nomatch h)]
    rfl
  | REFUND =>
    simp only [processCompletedTransaction, hty]
    rw [updateUserBalance_eq st1 t1.userId t1.amount .add u hu (fun h => nomatch h)]
    rfl
  | BONUS =>
    simp only [processCompletedTransaction, hty]
    rw [updateUserBalance_eq st1 t1.userId t1.amount .add u hu (fun h => nomatch h)]
    rfl
  | WITHDRAWAL =>
    simp only [processCompletedTransaction, hty]
    rw [updateUserBalance_eq st1 t1.userId t1.amount .subtract u hu
      (fun _ => hok hty)]
    rfl

/-- The rejecting path of the balance side effect: an over-balance WITHDRAWAL
raises InsufficientBalance before touching any state. -/
theorem processCompleted_insufficient (st1 : Sys) (t1 : TxRec) (u : UserRec)
    (hu : dbFindUser st1.db t1.userId = some u)
    (hty : t1.type = .WITHDRAWAL) (hover : u.balance < t1.amount) :
    processCompletedTransaction st1 t1 = (.error .insufficientBalance, st1) := by
  simp only [processCompletedTransaction, hty]
  simp only [updateUserBalance, hu]
  rw [if_pos ⟨by omega, by trivial⟩]

/-- C2 (amended): `updateTransactionStatus(id, COMPLETED)` runs the owner's
balance change on every call whose new status is COMPLETED, with no guard on the
transaction's previous status — so replaying COMPLETED on an already-COMPLETED
transaction applies the change a second time; each such call persists the
balance write and then raises at the user-profile cache delete. -/
theorem c2_completed_applies_balance_every_call (st : Sys) (now txId : Nat)
    (metadata : Option String) (t : TxRec) (u : UserRec)
    (ht : dbFindTx st.db txId = some t)
    (hu : dbFindUser st.db t.userId = some u)
    (hok : t.type = .WITHDRAWAL → t.amount ≤ u.balance) :
    userBalance (updateTransactionStatus st now txId .COMPLETED metadata).2.db
      t.userId = some (u.balance + signedAmount t.type t.amount) ∧
    (updateTransactionStatus st now txId .COMPLETED metadata).1 =
      .error .missingDelMethod := by
  simp only [updateTransactionStatus, ht, reduceIte]
  rw [processCompleted_eq _ _ u (by exact hu) (by exact hok)]
  exact ⟨userBalance_after_map _ _ _ u (by exact hu), rfl⟩

/-- C3 (amended): completing an over-balance WITHDRAWAL raises
InsufficientBalance to the caller with the balance neither clamped nor changed
and no cache write — but the transaction row's move to COMPLETED has already
been persisted when the rejection is raised. -/
theorem c3_withdrawal_over_balance (st : Sys) (now txId : Nat)
    (metadata : Option String) (t : TxRec) (u : UserRec)
    (ht : dbFindTx st.db txId = some t)
    (hty : t.type = .WITHDRAWAL)
    (hu : dbFindUser st.db t.userId = some u)
    (hover : u.balance < t.amount) :
    (updateTransactionStatus st now txId .COMPLETED metadata).1 =
      .error .insufficientBalance ∧
    (updateTransactionStatus st now txId .COMPLETED metadata).2.db.users =
      st.db.users ∧
    (updateTransactionStatus st now txId .COMPLETED metadata).2.cache = st.cache ∧
    txStatusOf (updateTransactionStatus st now txId .COMPLETED metadata).2.db txId =
      some .COMPLETED := by
  have ht' : st.db.transactions.find? (fun x => x.id == txId) = some t := ht
  simp only [updateTransactionStatus, ht, reduceIte]
  rw [processCompleted_insufficient _ _ u (by exact hu) (by exact hty)
    (by exact hover)]
  refine ⟨rfl, rfl, rfl, ?_⟩
  simp only [txStatusOf, dbFindTx]
  rw [find?_map_update _ _ (by simpa using List.find?_some ht') _ _ ht']
  rfl

/-- Witness for the C2 theorem at the concrete replay scenario `c2st`. -/
theorem c2_completed_applies_balance_every_call_witness :
    userBalance (updateTransactionStatus c2st 20 5 .COMPLETED none).2.db
      c2tx.userId = some ((150 : Int) + signedAmount c2tx.type c2tx.amount) ∧
    (updateTransactionStatus c2st 20 5 .COMPLETED none).1 =
      .error .missingDelMethod :=
  c2_completed_applies_balance_every_call c2st 20 5 none c2tx
    { id := 1, telegramId := 11, balance := 150 } (by decide) (by decide) (by decide)

/-- Witness for the C3 theorem at the concrete scenario `c3st`. -/
theorem c3_withdrawal_over_balance_witness :
    (updateTransactionStatus c3st 20 6 .COMPLETED none).1 =
      .error .insufficientBalance ∧
    (updateTransactionStatus c3st 20 6 .COMPLETED none).2.db.users =
      c3st.db.users ∧
    (updateTransactionStatus c3st 20 6 .COMPLETED none).2.cache = c3st.cache ∧
    txStatusOf (updateTransactionStatus c3st 20 6 .COMPLETED none).2.db 6 =
      some .COMPLETED :=
  c3_withdrawal_over_balance c3st 20 6 none c3tx
    { id := 1, telegramId := 11, balance := 10 } (by decide) (by decide)
    (by decide) (by decide)

/-- C5 (amended): for a token in the durable store whose expiry has passed (its
cache mirror, written with a TTL equal to the remaining life, is gone), validate
never answers valid:true and never returns the Expired refusal either: a wrong
key yields KeyMismatch (the key check precedes the expiry check), a used token
yields AlreadyUsed, and an unused token with the correct key enters the Expired
branch, which raises at the cache-mirror delete instead of returning Expired. -/
theorem c5_expired_token_outcomes (st : Sys) (now : Nat) (tok key : String)
    (t : TokenRec)
    (hcache : cacheGet st.cache now (keyDashboardToken tok) = none)
    (hdb : dbFindToken st.db tok = some t)
    (hexp : t.expiresAt < now) :
    vdtValid (validateDashboardToken st now tok key).1 ≠ some true ∧
    vdtError (validateDashboardToken st now tok key).1 ≠ some (some .expired) ∧
    (key ≠ t.accessKey → (validateDashboardToken st now tok key).1 =
      .ok { valid := false, adminId := none, tokenRecord := none,
            error := some .keyMismatch }) ∧
    (key = t.accessKey → t.isUsed = true →
      (validateDashboardToken st now tok key).1 =
      .ok { valid := false, adminId := none, tokenRecord := none,
            error := some .alreadyUsed }) ∧
    (key = t.accessKey → t.isUsed = false →
      (validateDashboardToken st now tok key).1 = .error .missingDelMethod) := by
  have hred : validateDashboardToken st now tok key =
      (if t.accessKey ≠ key then
        (.ok { valid := false, adminId := none, tokenRecord := none,
               error := some .keyMismatch }, st)
       else if t.isUsed then
        (.ok { valid := false, adminId := none, tokenRecord := none,
               error := some .alreadyUsed }, st)
       else (.error .missingDelMethod, st)) := by
    simp only [validateDashboardToken, hcache, hdb, validateTokenChecks,
      markTokenAsExpired, redisDel_error]
    rw [if_pos hexp]
  refine ⟨?_, ?_, ?_, ?_, ?_⟩
  · rw [hred]; split_ifs <;> simp [vdtValid]
  · rw [hred]; split_ifs <;> simp [vdtError]
  · intro hk
    rw [hred, if_pos (Ne.symm hk)]
  · intro hk hused
    rw [hred, if_neg (by simp [hk]), if_pos hused]
  · intro hk hused
    rw [hred, if_neg (by simp [hk]), if_neg (by simp [hused])]

/-- Witness for the C5 theorem at the concrete expired token `c5tok`, with the
wrong key and with the correct key. -/
theorem c5_expired_token_outcomes_witness :
    vdtValid (validateDashboardToken c5st 2000 "tokX" "wrong").1 ≠ some true ∧
    (validateDashboardToken c5st 2000 "tokX" "wrong").1 =
      .ok { valid := false, adminId := none, tokenRecord := none,
            error := some .keyMismatch } ∧
    (validateDashboardToken c5st 2000 "tokX" "keyX").1 =
      .error .missingDelMethod :=
  ⟨(c5_expired_token_outcomes c5st 2000 "tokX" "wrong" c5tok (by decide)
      (by decide) (by decide)).1,
   (c5_expired_token_outcomes c5st 2000 "tokX" "wrong" c5tok (by decide)
      (by decide) (by decide)).2.2.1 (by decide),
   (c5_expired_token_outcomes c5st 2000 "tokX" "keyX" c5tok (by decide)
      (by decide) (by decide)).2.2.2.2 (by decide) (by decide)⟩

/-- C8 (amended): with the order in the durable store and no live cache entry,
the first get performs one durable read and populates the cache; a second get
within the cache TTL performs no durable read and returns the cached copy —
which carries the extra `type` discriminator field the cache layer spreads into
the stored object, so the two results are not bit-identical even though the
underlying order row is the same. -/
theorem c8_get_twice_cached (st : Sys) (now now2 oid : Nat) (o : ShipOrderRec)
    (hmiss : cacheGet st.cache now (keyOrderDetails oid) = none)
    (hdb : dbFindShippingOrder st.db oid = some o)
    (hlive : now2 < now + TTL_MEDIUM * 1000) :
    (getShippingOrder st now oid).1 =
      .ok (some { order := o, typeField := none }) ∧
    (getShippingOrder (getShippingOrder st now oid).2 now2 oid).1 =
      .ok (some { order := o, typeField := some "shipping" }) ∧
    (getShippingOrder (getShippingOrder st now oid).2 now2 oid).2.db.orderReads =
      (getShippingOrder st now oid).2.db.orderReads ∧
    (getShippingOrder st now oid).1 ≠
      (getShippingOrder (getShippingOrder st now oid).2 now2 oid).1 := by
  have hdb' : st.db.shippingOrders.find? (fun x => x.id == oid) = some o := hdb
  have h1 : getShippingOrder st now oid =
      (.ok (some { order := o, typeField := none }),
       { db := { st.db with orderReads := st.db.orderReads + 1 },
         cache := cacheOrder st.cache now oid (.shipOrderVal o "shipping") }) := by
    simp only [getShippingOrder, getCachedShippingOrder, hmiss, dbFindShippingOrder,
      hdb']
  have h2 : getCachedShippingOrder (cacheOrder st.cache now oid
      (.shipOrderVal o "shipping")) now2 oid = some (o, "shipping") := by
    simp [getCachedShippingOrder, cacheGet, cacheOrder, cacheSet, hlive]
  rw [h1]
  refine ⟨rfl, ?_, ?_, ?_⟩
  · simp only [getShippingOrder, h2]
  · simp only [getShippingOrder, h2]
  · simp only [getShippingOrder, h2]
    simp [vdtValid]

/-- Witness for the C8 theorem at the concrete scenario `c8st`. -/
theorem c8_get_twice_cached_witness :
    (getShippingOrder c8st 100 5).1 =
      .ok (some { order := c8ord, typeField := none }) ∧
    (getShippingOrder (getShippingOrder c8st 100 5).2 200 5).1 =
      .ok (some { order := c8ord, typeField := some "shipping" }) ∧
    (getShippingOrder (getShippingOrder c8st 100 5).2 200 5).2.db.orderReads =
      (getShippingOrder c8st 100 5).2.db.orderReads ∧
    (getShippingOrder c8st 100 5).1 ≠
      (getShippingOrder (getShippingOrder c8st 100 5).2 200 5).1 :=
  c8_get_twice_cached c8st 100 200 5 c8ord (by decide) (by decide) (by decide)

/-- C9: the `RedisHelper` class defines no `del` method, so every operation
whose cache-deletion step executes — `markTokenAsUsed`, `markTokenAsExpired`,
the key-deleting branches of `validateWebSession` and `revokeAdminTokens`, and
`clearOrderCache` as reached by `addTrackingNumber` — raises a runtime error at
that step instead of deleting the key, for every input and even with all stores
available. -/
theorem c9_missing_del_raises :
    ("del" ∉ RedisHelper.methods) ∧
    (∀ (c : List CEntry) (k : String),
      redisDel c k = .error .missingDelMethod) ∧
    (∀ (st : Sys) (now : Nat) (tok : String) (ip : Option String),
      (markTokenAsUsed st now tok ip).1 = .error .missingDelMethod) ∧
    (∀ (st : Sys) (tok : String),
      (markTokenAsExpired st tok).1 = .error .missingDelMethod) ∧
    (∀ (st : Sys) (now : Nat) (sid : String) (sd : SessionData),
      cacheGet st.cache now (keyWebSession sid) = some (.session sd) →
      sd.expiresAt < now →
      (validateWebSession st now sid).1 = .error .missingDelMethod) ∧
    (∀ (st : Sys) (now : Nat) (sid : String) (sd : SessionData) (a : AdminRec),
      cacheGet st.cache now (keyWebSession sid) = some (.session sd) →
      ¬ sd.expiresAt < now →
      dbFindAdmin st.db sd.adminId = some a →
      a.isActive = false →
      (validateWebSession st now sid).1 = .error .missingDelMethod) ∧
    (∀ (st : Sys) (now adminId : Nat) (v : CacheVal),
      cacheGet st.cache now (keyPendingAccess adminId) = some v →
      (revokeAdminTokens st now adminId).1 = .error .missingDelMethod) ∧
    (∀ (st : Sys) (oid : Nat) (tr : String) (k : OrderKind),
      (k = .shipping → (dbFindShippingOrder st.db oid).isSome) →
      (k = .purchase → (dbFindPurchaseOrder st.db oid).isSome) →
      (addTrackingNumber st oid tr k).1 = .error .missingDelMethod) := by
  refine ⟨by decide, redisDel_error, ?_, ?_, ?_, ?_, ?_, ?_⟩
  · intro st now tok ip
    simp only [markTokenAsUsed, redisDel_error]
  · intro st tok
    simp only [markTokenAsExpired, redisDel_error]
  · intro st now sid sd hcg hexp
    simp only [validateWebSession, hcg, redisDel_error]
    rw [if_pos hexp]
  · intro st now sid sd a hcg hnexp hadmin ha
    simp only [validateWebSession, hcg, hadmin, redisDel_error]
    rw [if_neg hnexp, if_pos (by simp [ha])]
  · intro st now adminId v hv
    simp only [revokeAdminTokens, hv, redisDel_error]
  · intro st oid tr k h1 h2
    cases k with
    | shipping =>
      obtain ⟨o, ho⟩ := Option.isSome_iff_exists.mp (h1 rfl)
      simp only [addTrackingNumber, ho, clearOrderCache, redisDel_error]
    | purchase =>
      obtain ⟨o, ho⟩ := Option.isSome_iff_exists.mp (h2 rfl)
      simp only [addTrackingNumber, ho, clearOrderCache, redisDel_error]

/-- Witness for the C9 theorem: each listed operation raising at its
cache-deletion step on a concrete state where that step executes. -/
theorem c9_missing_del_raises_witness :
    ("del" ∉ RedisHelper.methods) ∧
    redisDel [] "k" = .error .missingDelMethod ∧
    (markTokenAsUsed c4st1 1000 "tokA" none).1 = .error .missingDelMethod ∧
    (markTokenAsExpired c4st1 "tokA").1 = .error .missingDelMethod ∧
    (validateWebSession c7st 2000 "s1").1 = .error .missingDelMethod ∧
    (validateWebSession c7st 2000 "s2").1 = .error .missingDelMethod ∧
    (revokeAdminTokens c9st 100 7).1 = .error .missingDelMethod ∧
    (addTrackingNumber c8st 5 "TRK123" .shipping).1 = .error .missingDelMethod :=
  ⟨c9_missing_del_raises.1,
   c9_missing_del_raises.2.1 [] "k",
   c9_missing_del_raises.2.2.1 c4st1 1000 "tokA" none,
   c9_missing_del_raises.2.2.2.1 c4st1 "tokA",
   c9_missing_del_raises.2.2.2.2.1 c7st 2000 "s1" c7sd1 (by decide) (by decide),
   c9_missing_del_raises.2.2.2.2.2.1 c7st 2000 "s2" c7sd2
     { id := 4, isActive := false } (by decide) (by decide) (by decide) (by decide),
   c9_missing_del_raises.2.2.2.2.2.2.1 c9st 100 7 (.pendingToken "tokZ") (by decide),
   c9_missing_del_raises.2.2.2.2.2.2.2 c8st 5 "TRK123" .shipping (by decide)
     (by decide)⟩

/-! ## Order history audit (C6) and remaining claims -/

/-- A cache hit returns the value of an entry of the cache under that key. -/
theorem cacheGet_some_val (c : List CEntry) (now : Nat) (key : String)
    (v : CacheVal) (h : cacheGet c now key = some v) :
    ∃ e ∈ c, e.key = key ∧ e.val = v := by
  unfold cacheGet at h
  cases hf : c.find? (fun e => e.key == key) with
  | none => simp only [hf] at h; cases h
  | some e =>
    simp only [hf] at h
    by_cases ht : now < e.expireAt
    · rw [if_pos ht] at h
      cases h
      exact ⟨e, List.mem_of_find?_eq_some hf, by simpa using List.find?_some hf, rfl⟩
    · rw [if_neg ht] at h
      cases h

/-- Under the invariant, a shipping-order cache hit can only produce the
current order tagged "shipping". -/
theorem getCached_of_inv (st : Sys) (o : ShipOrderRec) (oid now : Nat)
    (inv : OrderInv oid o st) (p : ShipOrderRec × String)
    (h : getCachedShippingOrder st.cache now oid = some p) :
    p = (o, "shipping") := by
  unfold getCachedShippingOrder at h
  cases hg : cacheGet st.cache now (keyOrderDetails oid) with
  | none => simp only [hg] at h; cases h
  | some v =>
    simp only [hg] at h
    obtain ⟨e, he, hek, hev⟩ := cacheGet_some_val _ _ _ _ hg
    have hval : v = .shipOrderVal o "shipping" := hev ▸ inv.hcache e he hek
    subst hval
    simpa using h.symm

/-- Under the invariant, `getShippingOrder` succeeds with the current order and
preserves the invariant, the order rows and the history. -/
theorem getShippingOrder_under_inv (st : Sys) (o : ShipOrderRec) (oid now : Nat)
    (inv : OrderInv oid o st) :
    ∃ v : ShipOrderView, ∃ st1 : Sys,
      getShippingOrder st now oid = (.ok (some v), st1) ∧ v.order = o ∧
      OrderInv oid o st1 ∧
      st1.db.shippingOrders = st.db.shippingOrders ∧
      st1.db.orderStatusHistory = st.db.orderStatusHistory := by
  cases hc : getCachedShippingOrder st.cache now oid with
  | some p =>
    have hp := getCached_of_inv st o oid now inv p hc
    subst hp
    refine ⟨{ order := o, typeField := some "shipping" }, st, ?_, rfl, inv, rfl, rfl⟩
    simp only [getShippingOrder, hc]
  | none =>
    have hdb' : st.db.shippingOrders.find? (fun x => x.id == oid) = some o := inv.hdb
    refine ⟨{ order := o, typeField := none },
      { db := { st.db with orderReads := st.db.orderReads + 1 },
        cache := cacheOrder st.cache now oid (.shipOrderVal o "shipping") },
      ?_, rfl, ?_, rfl, rfl⟩
    · simp only [getShippingOrder, hc, dbFindShippingOrder, hdb']
    · refine ⟨inv.hid, inv.hdb, inv.hall, ?_⟩
      intro e he hk
      rcases List.mem_cons.mp he with h | h
      · subst h; rfl
      · have hmem := List.mem_filter.mp h
        exact absurd hk (by simpa using hmem.2)

/-- One `transition` call under the invariant: it returns the order with the
new status, re-establishes the invariant for it, and appends exactly one
history row whose oldStatus is the loaded order's status. -/
theorem updateShippingOrderStatus_step (st : Sys) (o : ShipOrderRec) (oid : Nat)
    (inv : OrderInv oid o st) (c : TransitionCall) :
    (updateShippingOrderStatus st c.now oid c.newStatus c.comment c.adminId).1 =
      .ok { o with status := c.newStatus, updatedAt := c.now } ∧
    OrderInv oid { o with status := c.newStatus, updatedAt := c.now }
      (updateShippingOrderStatus st c.now oid c.newStatus c.comment c.adminId).2 ∧
    (updateShippingOrderStatus st c.now oid c.newStatus
        c.comment c.adminId).2.db.orderStatusHistory =
      st.db.orderStatusHistory ++
        [{ orderId := oid, orderType := "shipping",
           oldStatus := some (statusStr o.status),
           newStatus := statusStr c.newStatus, comment := c.comment,
           adminId := c.adminId }] := by
  obtain ⟨v, st1, hget, hvo, inv1, hords, hhist⟩ :=
    getShippingOrder_under_inv st o oid c.now inv
  have hq : ((({ o with status := c.newStatus, updatedAt := c.now } :
      ShipOrderRec)).id == oid) = true := by simp [inv.hid]
  have hdb1 : st1.db.shippingOrders.find? (fun x => x.id == oid) = some o :=
    inv1.hdb
  simp only [updateShippingOrderStatus, hget, inv1.hdb, createStatusHistory, hvo]
  refine ⟨trivial, ?_, ?_⟩
  · refine ⟨by simpa using inv.hid, ?_, ?_, ?_⟩
    · exact find?_map_update (fun x => x.id == oid)
        { o with status := c.newStatus, updatedAt := c.now } hq
        st1.db.shippingOrders o hdb1
    · intro x hx hxid
      obtain ⟨y, hy, hmap⟩ := List.mem_map.mp hx
      by_cases hqy : (y.id == oid) = true
      · rw [if_pos hqy] at hmap
        exact hmap.symm
      · rw [if_neg (by simpa using hqy)] at hmap
        subst hmap
        exact absurd hxid (by simpa using hqy)
    · intro e he hk
      rcases List.mem_cons.mp he with h | h
      · subst h; rfl
      · have hmem := List.mem_filter.mp h
        exact absurd hk (by simpa using hmem.2)
  · rw [hhist]

/-- Folding transition calls under the invariant appends exactly the
corresponding `transRows`. -/
theorem runTransitions_spec (oid : Nat) (calls : List TransitionCall) :
    ∀ (st : Sys) (o : ShipOrderRec), OrderInv oid o st →
      ∃ o' : ShipOrderRec, OrderInv oid o' (runTransitions oid st calls) ∧
        (runTransitions oid st calls).db.orderStatusHistory =
          st.db.orderStatusHistory ++ transRows oid o.status calls := by
  induction calls with
  | nil =>
    intro st o inv
    exact ⟨o, inv, by simp [runTransitions, transRows]⟩
  | cons c rest ih =>
    intro st o inv
    obtain ⟨h1, hinv, hhist⟩ := updateShippingOrderStatus_step st o oid inv c
    obtain ⟨o', hinv', hh'⟩ := ih _ _ hinv
    refine ⟨o', hinv', ?_⟩
    show (runTransitions oid _ rest).db.orderStatusHistory = _
    rw [hh', hhist, transRows]
    simp [List.append_assoc]

/-- `createShippingOrder` establishes the invariant for the fresh order and
writes the single creation history row. -/
theorem createShippingOrder_establishes (st : Sys) (now : Nat)
    (data : ShippingOrderCreateData)
    (hfresh : ∀ x ∈ st.db.shippingOrders, x.id ≠ st.db.nextShippingOrderId) :
    OrderInv st.db.nextShippingOrderId (createShippingOrder st now data).1
      (createShippingOrder st now data).2 ∧
    (createShippingOrder st now data).2.db.orderStatusHistory =
      st.db.orderStatusHistory ++
        [{ orderId := st.db.nextShippingOrderId, orderType := "shipping",
           oldStatus := none, newStatus := "CREATED",
           comment := some "Заказ создан", adminId := none }] ∧
    (createShippingOrder st now data).1.status = .CREATED := by
  have hnone : st.db.shippingOrders.find?
      (fun x => x.id == st.db.nextShippingOrderId) = none := by
    rw [List.find?_eq_none]
    intro x hx
    simpa using hfresh x hx
  refine ⟨⟨rfl, ?_, ?_, ?_⟩, rfl, rfl⟩
  · show (st.db.shippingOrders ++ [_]).find? _ = _
    rw [find?_append_none _ _ _ hnone]
    exact List.find?_cons_of_pos _ (by simp)
  · intro x hx hxid
    rcases List.mem_append.mp hx with h | h
    · exact absurd hxid (hfresh x h)
    · simpa using h
  · intro e he hk
    rcases List.mem_cons.mp he with h | h
    · subst h; rfl
    · have hmem := List.mem_filter.mp h
      exact absurd hk (by simpa using hmem.2)

theorem transRows_length (oid : Nat) :
    ∀ (calls : List TransitionCall) (cur : OrderStatus),
      (transRows oid cur calls).length = calls.length := by
  intro calls
  induction calls with
  | nil => intro cur; rfl
  | cons c rest ih => intro cur; simp [transRows, ih]

theorem transRows_filter (oid : Nat) :
    ∀ (calls : List TransitionCall) (cur : OrderStatus),
      (transRows oid cur calls).filter
        (fun h => h.orderId == oid && h.orderType == "shipping") =
        transRows oid cur calls := by
  intro calls
  induction calls with
  | nil => intro cur; rfl
  | cons c rest ih => intro cur; simp [transRows, ih]

theorem transRows_chained (oid : Nat) :
    ∀ (calls : List TransitionCall) (cur : OrderStatus),
      chainedFrom (some (statusStr cur)) (transRows oid cur calls) := by
  intro calls
  induction calls with
  | nil => intro cur; trivial
  | cons c rest ih => intro cur; exact ⟨rfl, ih c.newStatus⟩

/-- C6: creating a shipping order and then running N transition calls leaves
exactly N+1 durable history rows for it; the first row has no oldStatus and
newStatus CREATED, and every later row's oldStatus equals the newStatus of the
row immediately before it. (Hypotheses: the order id the store will assign is
not already taken and carries no prior shipping history rows.) -/
theorem c6_history_rows_chain (st : Sys) (now : Nat)
    (data : ShippingOrderCreateData) (calls : List TransitionCall)
    (hfresh : ∀ x ∈ st.db.shippingOrders, x.id ≠ st.db.nextShippingOrderId)
    (hhist0 : historyFor st.db st.db.nextShippingOrderId = []) :
    (historyFor (runTransitions st.db.nextShippingOrderId
        (createShippingOrder st now data).2 calls).db
        st.db.nextShippingOrderId).length = calls.length + 1 ∧
    (historyFor (runTransitions st.db.nextShippingOrderId
        (createShippingOrder st now data).2 calls).db
        st.db.nextShippingOrderId).head? =
      some { orderId := st.db.nextShippingOrderId, orderType := "shipping",
             oldStatus := none, newStatus := "CREATED",
             comment := some "Заказ создан", adminId := none } ∧
    chainedFrom none (historyFor (runTransitions st.db.nextShippingOrderId
        (createShippingOrder st now data).2 calls).db
        st.db.nextShippingOrderId) := by
  obtain ⟨inv0, hch, hcs⟩ := createShippingOrder_establishes st now data hfresh
  obtain ⟨o', hinv', hh'⟩ :=
    runTransitions_spec st.db.nextShippingOrderId calls _ _ inv0
  rw [hcs] at hh'
  have hhist0' : st.db.orderStatusHistory.filter
      (fun h => h.orderId == st.db.nextShippingOrderId &&
        h.orderType == "shipping") = [] := hhist0
  have hfinal : historyFor (runTransitions st.db.nextShippingOrderId
      (createShippingOrder st now data).2 calls).db st.db.nextShippingOrderId =
      { orderId := st.db.nextShippingOrderId, orderType := "shipping",
        oldStatus := none, newStatus := "CREATED",
        comment := some "Заказ создан", adminId := none } ::
        transRows st.db.nextShippingOrderId .CREATED calls := by
    unfold historyFor
    rw [hh', hch]
    simp [List.filter_append, hhist0', transRows_filter]
  rw [hfinal]
  refine ⟨by simp [transRows_length], rfl, rfl, transRows_chained _ calls .CREATED⟩

/-- Witness for the C6 theorem on the concrete two-transition scenario. -/
theorem c6_history_rows_chain_witness :
    (historyFor (runTransitions st0.db.nextShippingOrderId
        (createShippingOrder st0 5 c6data).2 c6calls).db
        st0.db.nextShippingOrderId).length = c6calls.length + 1 ∧
    (historyFor (runTransitions st0.db.nextShippingOrderId
        (createShippingOrder st0 5 c6data).2 c6calls).db
        st0.db.nextShippingOrderId).head? =
      some { orderId := st0.db.nextShippingOrderId, orderType := "shipping",
             oldStatus := none, newStatus := "CREATED",
             comment := some "Заказ создан", adminId := none } ∧
    chainedFrom none (historyFor (runTransitions st0.db.nextShippingOrderId
        (createShippingOrder st0 5 c6data).2 c6calls).db
        st0.db.nextShippingOrderId) :=
  c6_history_rows_chain st0 5 c6data c6calls (by decide) (by decide)

end Cargo
